import Mathlib

/-!
Shallow embedding of the Gl.JS micro-framework (src/gl.js): the virtual-node
builder (`createElement`, `createTextElement`), the recursive materializer
(`render`), the state container (`Store`), and the bootstrap (`createApp`).

JavaScript values that can appear as node content or attribute values are
embedded as the inductive `JSVal`; the host display tree (the real DOM) is
embedded as the inductive `HostNode`, with property assignment and child
appending as explicit functions. Side-effecting JS procedures become pure
functions returning their result (render returns the updated container;
a render that would throw returns `none`). Observer invocation in
`Store.dispatch` is recorded as a notification trace: a list pairing each
invoked listener with the value `getState()` returns at the moment it is
invoked.
-/

namespace GlJS

/-- JavaScript values relevant to the framework: strings, numbers (the example
code only uses integral values, embedded as `Int`), booleans, `null`,
`undefined`, virtual-node objects (`{ type, props, children }` as produced by
`createElement` / `createTextElement`), and arrays. -/
inductive JSVal where
  | str : String → JSVal
  | num : Int → JSVal
  | boolVal : Bool → JSVal
  | null : JSVal
  | undef : JSVal
  | node : String → List (String × JSVal) → List JSVal → JSVal
  | arr : List JSVal → JSVal

/-- `typeof v === "object"` in JavaScript: true exactly for `null`, plain
objects (virtual nodes) and arrays; false for strings, numbers, booleans and
`undefined`. -/
def typeofIsObject : JSVal → Bool
  | JSVal.null => true
  | JSVal.node _ _ _ => true
  | JSVal.arr _ => true
  | _ => false

/-- The `kind`/`type` tag of a virtual-node value, when it is one. -/
def kindOf : JSVal → Option String
  | JSVal.node ty _ _ => some ty
  | _ => none

/-- The `attributes`/`props` mapping of a virtual-node value, when it is one. -/
def attrsOf : JSVal → Option (List (String × JSVal))
  | JSVal.node _ props _ => some props
  | _ => none

/-- The `content`/`children` sequence of a virtual-node value, when it is one. -/
def contentOf : JSVal → Option (List JSVal)
  | JSVal.node _ _ children => some children
  | _ => none

/-- `Array.prototype.flat()` with the default depth of 1: array items are
spliced in place (one level of un-nesting), all other items are kept. -/
def flatOne : List JSVal → List JSVal
  | [] => []
  | JSVal.arr xs :: rest => xs ++ flatOne rest
  | c :: rest => c :: flatOne rest

/-- One level of un-nesting of a single item: an array contributes its
elements, any other value contributes itself. `flatOne` is the ordered
concatenation of `unwrapOne` over the items. -/
def unwrapOne : JSVal → List JSVal
  | JSVal.arr xs => xs
  | v => [v]

/-- `createTextElement(text)` from src/gl.js: a virtual node with the reserved
type `"TEXT_ELEMENT"`, props holding the payload under the fixed key
`nodeValue` (stored as given, no conversion), and no children. -/
def createTextElement (text : JSVal) : JSVal :=
  JSVal.node "TEXT_ELEMENT" [("nodeValue", text)] []

/-- The normalization applied to each flattened content item in
`createElement`: object-typed values pass through unchanged, every other value
is wrapped by `createTextElement`. -/
def normalizeChild (child : JSVal) : JSVal :=
  if typeofIsObject child then child else createTextElement child

/-- `createElement(type, props, ...children)` from src/gl.js. `props || {}`
is embedded as an `Option` defaulting to the empty mapping; the rest-argument
sequence is flattened one level and each item normalized. -/
def createElement (ty : String) (props : Option (List (String × JSVal)))
    (children : List JSVal) : JSVal :=
  JSVal.node ty (props.getD []) ((flatOne children).map normalizeChild)

/-- A node of the host display tree (the real DOM): either a text node or an
element node, each carrying its assigned properties and appended children in
order. `document.createTextNode("")` yields a text node whose `nodeValue`
property is the empty string. -/
inductive HostNode where
  | text : List (String × JSVal) → List HostNode → HostNode
  | elem : String → List (String × JSVal) → List HostNode → HostNode

/-- The property mapping of a host node. -/
def HostNode.props : HostNode → List (String × JSVal)
  | HostNode.text ps _ => ps
  | HostNode.elem _ ps _ => ps

/-- The appended children of a host node, in append order. -/
def HostNode.children : HostNode → List HostNode
  | HostNode.text _ cs => cs
  | HostNode.elem _ _ cs => cs

/-- Assignment into a string-keyed property mapping: overwrites the existing
entry for the key, or appends a new entry. -/
def updateAssoc : List (String × JSVal) → String → JSVal → List (String × JSVal)
  | [], k, v => [(k, v)]
  | (k1, v1) :: rest, k, v =>
      if k1 = k then (k, v) :: rest else (k1, v1) :: updateAssoc rest k v

/-- Read a property mapping at a key. -/
def lookupProp : List (String × JSVal) → String → Option JSVal
  | [], _ => none
  | (k1, v1) :: rest, k => if k1 = k then some v1 else lookupProp rest k

/-- `dom[name] = value`: property assignment on a host node. -/
def setProp : HostNode → String → JSVal → HostNode
  | HostNode.text ps cs, k, v => HostNode.text (updateAssoc ps k v) cs
  | HostNode.elem ty ps cs, k, v => HostNode.elem ty (updateAssoc ps k v) cs

/-- `parent.appendChild(child)`: append one host node at the end of another's
children. -/
def appendChild : HostNode → HostNode → HostNode
  | HostNode.text ps cs, c => HostNode.text ps (cs ++ [c])
  | HostNode.elem ty ps cs, c => HostNode.elem ty ps (cs ++ [c])

/-- Append a list of host nodes, in order, as children. -/
def addChildren : HostNode → List HostNode → HostNode
  | HostNode.text ps cs, ks => HostNode.text ps (cs ++ ks)
  | HostNode.elem ty ps cs, ks => HostNode.elem ty ps (cs ++ ks)

/-- The attribute-application loop of `render`: for each key of
`element.props` in order, assign it onto `dom` unless the key is the literal
`"children"`. -/
def applyProps (dom : HostNode) (props : List (String × JSVal)) : HostNode :=
  props.foldl (fun d p => if p.1 = "children" then d else setProp d p.1 p.2) dom

mutual

/-- The body of `render(element, container)` up to (but excluding) the final
`container.appendChild(dom)`: create the host node (`createTextNode("")` for
the text sentinel, `createElement(type)` otherwise), apply the props, and
recursively render all children into it, in order. Returns `none` when the
JavaScript code would throw (the element is not a virtual-node object). -/
def renderNode : JSVal → Option HostNode
  | JSVal.node ty props children =>
      let base := if ty = "TEXT_ELEMENT"
        then HostNode.text [("nodeValue", JSVal.str "")] []
        else HostNode.elem ty [] []
      let withProps := applyProps base props
      match renderList children with
      | none => none
      | some kids => some (addChildren withProps kids)
  | _ => none

/-- `element.children.forEach(child => render(child, dom))`: the materialized
children, in order; `none` as soon as one child throws. -/
def renderList : List JSVal → Option (List HostNode)
  | [] => some []
  | c :: cs =>
      match renderNode c, renderList cs with
      | some d, some ds => some (d :: ds)
      | _, _ => none

end

/-- `render(element, container)` from src/gl.js: materialize `element` and
append the resulting host node to `container`; the container is only touched
by this one final append. -/
def render (element : JSVal) (container : HostNode) : Option HostNode :=
  match renderNode element with
  | none => none
  | some dom => some (appendChild container dom)

/-- The `Store` class of src/gl.js: current state, the reducer supplied at
construction, and the ordered listener sequence. Listeners are zero-argument
callables identified here by an abstract label type `L`; what `dispatch` does
with them is recorded as a notification trace (see `Store.dispatch`). -/
structure Store (σ α L : Type) where
  state : σ
  reducer : σ → α → σ
  listeners : List L

variable {σ α ε L : Type}

/-- `getState()`: return the current state. -/
def Store.getState (st : Store σ α L) : σ :=
  st.state

/-- `dispatch(action)`: first `this.state = this.reducer(this.state, action)`,
then `this.listeners.forEach(listener => listener())`. The result is the
updated store together with the notification trace: one entry per registered
listener, in subscription order, each paired with the value `getState()`
returns at the moment that listener runs (the listeners themselves receive no
arguments). -/
def Store.dispatch (st : Store σ α L) (action : α) :
    Store σ α L × List (L × σ) :=
  let st1 : Store σ α L := Store.mk (st.reducer st.state action) st.reducer st.listeners
  (st1, st1.listeners.map fun l => (l, st1.getState))

/-- `subscribe(listener)`: `this.listeners.push(listener)` — append at the
end, no deduplication. -/
def Store.subscribe (st : Store σ α L) (l : L) : Store σ α L :=
  Store.mk st.state st.reducer (st.listeners ++ [l])

/-- `n` consecutive `subscribe` calls with the same listener. -/
def subscribeTimes (st : Store σ α L) (l : L) : Nat → Store σ α L
  | 0 => st
  | n + 1 => Store.subscribe (subscribeTimes st l n) l

/-- The same `Store`, with the reducer embedded as fallible (`Except`), to
model a `transition` function that throws. -/
structure StoreE (σ α ε L : Type) where
  state : σ
  reducer : σ → α → Except ε σ
  listeners : List L

/-- `dispatch(action)` when the reducer may throw. In
`this.state = this.reducer(this.state, action)` the right-hand side is
evaluated first, so when it throws the assignment never happens, the
`forEach` over listeners never runs, and the exception propagates to the
caller (the third component). -/
def StoreE.dispatch (st : StoreE σ α ε L) (action : α) :
    StoreE σ α ε L × List (L × σ) × Option ε :=
  match st.reducer st.state action with
  | Except.error e => (st, [], some e)
  | Except.ok s1 =>
      let st1 : StoreE σ α ε L := StoreE.mk s1 st.reducer st.listeners
      (st1, st1.listeners.map fun l => (l, st1.state), none)

/-- `rootElement.innerHTML = ""`: remove all children of a host node. -/
def clearChildren : HostNode → HostNode
  | HostNode.text ps _ => HostNode.text ps []
  | HostNode.elem ty ps _ => HostNode.elem ty ps []

/-- The `renderApp` procedure defined inside `createApp`: clear the root
host's children, then `render(rootComponent(state), rootElement)`, where
`state` is what `store.getState()` returns at invocation time. -/
def renderApp (rootComponent : σ → JSVal) (state : σ) (rootElement : HostNode) :
    Option HostNode :=
  render (rootComponent state) (clearChildren rootElement)

/-- `createApp(rootComponent, rootElement, store)` from src/gl.js:
subscribe `renderApp` to the store, then perform the single initial
`renderApp()` call. Listener labels are instantiated at the render-procedure
type `σ → HostNode → Option HostNode`, so the registered label is `renderApp`
itself; the second component is the host tree the initial call produces
(the console logging is incidental and not modelled). -/
def createApp (rootComponent : σ → JSVal) (rootElement : HostNode)
    (store : Store σ α (σ → HostNode → Option HostNode)) :
    Store σ α (σ → HostNode → Option HostNode) × Option HostNode :=
  let store1 := Store.subscribe store (fun s h => renderApp rootComponent s h)
  (store1, renderApp rootComponent (Store.getState store1) rootElement)

/-- String coercion of a primitive, modelled from the spec: the "string form"
of a value (§4.1: content items are wrapped into a text node "whose payload is
that value's string form"). The source never computes this; it is defined here
only to compare the spec's wording with what the code stores. -/
def specStringForm : JSVal → String
  | JSVal.str s => s
  | JSVal.num n => toString n
  | JSVal.boolVal b => if b then "true" else "false"
  | JSVal.null => "null"
  | JSVal.undef => "undefined"
  | JSVal.node _ _ _ => "[object Object]"
  | JSVal.arr _ => ""

/-! ## Theorems about the state container -/

lemma map_fst_pair (xs : List L) (c : σ) :
    (xs.map fun l => (l, c)).map Prod.fst = xs := by
  induction xs with
  | nil => rfl
  | cons x xs ih => simp [ih]

/-- C2: `dispatch(action)` sets the state to `transition(state, action)`
computed from the pre-dispatch state (so, the transition and the current
state being fixed, the new state is a function of the action alone), leaves
the reducer and listener sequence unchanged, and its notification trace
invokes every registered observer exactly once per registration, in
subscription order, each observing via `getState()` exactly the
post-transition state. -/
theorem dispatch_updates_then_notifies (st : Store σ α L) (a : α) :
    (st.dispatch a).1.state = st.reducer st.state a ∧
    (st.dispatch a).1.reducer = st.reducer ∧
    (st.dispatch a).1.listeners = st.listeners ∧
    (st.dispatch a).2
      = st.listeners.map (fun l => (l, (st.dispatch a).1.getState)) ∧
    (st.dispatch a).1.getState = st.reducer st.state a ∧
    (st.dispatch a).2.map Prod.fst = st.listeners := by
  refine ⟨rfl, rfl, rfl, rfl, rfl, ?_⟩
  exact map_fst_pair _ _

/-- C7: `subscribe` appends at the end of the observer sequence without
deduplication; subscribing the same observer `n` times yields `n` trailing
registrations, and a `dispatch` then notifies it once per registration, in
registration order. -/
theorem subscribe_appends_no_dedup (st : Store σ α L) (l : L) (n : Nat) (a : α) :
    (st.subscribe l).listeners = st.listeners ++ [l] ∧
    (subscribeTimes st l n).listeners = st.listeners ++ List.replicate n l ∧
    ((subscribeTimes st l n).dispatch a).2.map Prod.fst
      = st.listeners ++ List.replicate n l := by
  have hrep : ∀ m : Nat, (subscribeTimes st l m).listeners
      = st.listeners ++ List.replicate m l := by
    intro m
    induction m with
    | zero => simp [subscribeTimes]
    | succ k ih =>
        simp [subscribeTimes, Store.subscribe, ih, List.replicate_succ']
  refine ⟨rfl, hrep n, ?_⟩
  exact (map_fst_pair _ _).trans (hrep n)

/-- C9: when the reducer throws on `(state, action)`, `dispatch` leaves the
store (state, reducer and listeners alike) exactly as it was, invokes no
observer, and propagates the exception to its caller. -/
theorem dispatch_atomic_on_failure (st : StoreE σ α ε L) (a : α) (e : ε)
    (h : st.reducer st.state a = Except.error e) :
    StoreE.dispatch st a = (st, [], some e) := by
  simp [StoreE.dispatch, h]

/-- Witness for `dispatch_atomic_on_failure` at a concrete failing reducer. -/
theorem dispatch_atomic_on_failure_witness :
    (StoreE.mk 7 (fun _ _ => (Except.error 0 : Except Nat Nat)) [1, 2]
        : StoreE Nat Nat Nat Nat).reducer 7 5 = Except.error 0 ∧
    StoreE.dispatch
        (StoreE.mk 7 (fun _ _ => (Except.error 0 : Except Nat Nat)) [1, 2]
          : StoreE Nat Nat Nat Nat) 5
      = (StoreE.mk 7 (fun _ _ => (Except.error 0 : Except Nat Nat)) [1, 2], [], some 0) :=
  ⟨rfl, dispatch_atomic_on_failure _ 5 0 rfl⟩

/-- C8: `createApp` registers the `renderApp` procedure as one observer at
the end of the store's sequence, leaves state and reducer untouched, and its
single initial render is `renderApp` at the store's current (initial) state;
`renderApp` itself clears the root host's children and then renders the root
producer applied to that state into the cleared host. -/
theorem createApp_registers_and_renders_once (rootComponent : σ → JSVal)
    (rootElement : HostNode)
    (store : Store σ α (σ → HostNode → Option HostNode)) :
    (createApp rootComponent rootElement store).1.listeners
      = store.listeners ++ [fun s h => renderApp rootComponent s h] ∧
    (createApp rootComponent rootElement store).1.state = store.state ∧
    (createApp rootComponent rootElement store).1.reducer = store.reducer ∧
    (createApp rootComponent rootElement store).2
      = renderApp rootComponent store.state rootElement ∧
    renderApp rootComponent store.state rootElement
      = render (rootComponent store.state) (clearChildren rootElement) ∧
    (clearChildren rootElement).children = [] := by
  refine ⟨rfl, rfl, rfl, rfl, rfl, ?_⟩
  cases rootElement <;> rfl

/-! ## Theorems about the node builder -/

lemma flatOne_eq_bind (args : List JSVal) : flatOne args = args.flatMap unwrapOne := by
  induction args with
  | nil => rfl
  | cons c rest ih =>
      cases c with
      | arr xs => simp [flatOne, unwrapOne, ih, List.flatMap_cons]
      | str s => simp [flatOne, unwrapOne, ih, List.flatMap_cons]
      | num n => simp [flatOne, unwrapOne, ih, List.flatMap_cons]
      | boolVal b => simp [flatOne, unwrapOne, ih, List.flatMap_cons]
      | null => simp [flatOne, unwrapOne, ih, List.flatMap_cons]
      | undef => simp [flatOne, unwrapOne, ih, List.flatMap_cons]
      | node ty ps cs => simp [flatOne, unwrapOne, ih, List.flatMap_cons]

/-- C5: the `content` of a built node is the order-preserving concatenation
of the content arguments with exactly one level of un-nesting (`unwrapOne`
splices a sequence argument in place and keeps any other item), each
flattened item then normalized; a sequence passed as a content item is
unwrapped exactly once into the flat result. -/
theorem createElement_flattens_one_level (ty : String)
    (props : Option (List (String × JSVal))) (args : List JSVal) :
    contentOf (createElement ty props args)
      = some ((args.flatMap unwrapOne).map normalizeChild) ∧
    (∀ xs : List JSVal, unwrapOne (JSVal.arr xs) = xs) ∧
    (∀ s : String, unwrapOne (JSVal.str s) = [JSVal.str s]) ∧
    (∀ v : JSVal, unwrapOne v = [v] ∨ ∃ xs, v = JSVal.arr xs ∧ unwrapOne v = xs) := by
  refine ⟨?_, fun xs => rfl, fun s => rfl, ?_⟩
  · show some ((flatOne args).map normalizeChild)
        = some ((args.flatMap unwrapOne).map normalizeChild)
    rw [flatOne_eq_bind]
  · intro v
    cases v with
    | arr xs => exact Or.inr ⟨xs, rfl, rfl⟩
    | str s => exact Or.inl rfl
    | num n => exact Or.inl rfl
    | boolVal b => exact Or.inl rfl
    | null => exact Or.inl rfl
    | undef => exact Or.inl rfl
    | node ty2 ps cs => exact Or.inl rfl

/-- C4 (counterexample): `build` applied to the lone primitive content item
`5` (a number) stores the number itself, unconverted, as the text payload;
the payload is not the string form `"5"` of the value, refuting the claim at
this input. -/
theorem createElement_payload_not_string_form :
    contentOf (createElement "div" none [JSVal.num 5])
      = some [JSVal.node "TEXT_ELEMENT" [("nodeValue", JSVal.num 5)] []] ∧
    specStringForm (JSVal.num 5) = "5" ∧
    JSVal.num 5 ≠ JSVal.str "5" := by
  refine ⟨rfl, rfl, ?_⟩
  intro h
  cases h

/-- C4 (amended): `build` applied to a primitive (non-object-typed) value `v`
as a lone content item yields exactly one child, a text VirtualNode with the
text-sentinel kind, empty content, and the payload under the fixed key equal
to `v` itself, stored unconverted (for a string-valued `v` this coincides
with its string form). -/
theorem createElement_wraps_primitive_unconverted (ty : String)
    (props : Option (List (String × JSVal))) (v : JSVal)
    (h : typeofIsObject v = false) :
    contentOf (createElement ty props [v]) = some [createTextElement v] ∧
    kindOf (createTextElement v) = some "TEXT_ELEMENT" ∧
    contentOf (createTextElement v) = some [] ∧
    attrsOf (createTextElement v) = some [("nodeValue", v)] ∧
    (∀ s : String, specStringForm (JSVal.str s) = s) := by
  cases v with
  | str s => exact ⟨rfl, rfl, rfl, rfl, fun s2 => rfl⟩
  | num n => exact ⟨rfl, rfl, rfl, rfl, fun s2 => rfl⟩
  | boolVal b => exact ⟨rfl, rfl, rfl, rfl, fun s2 => rfl⟩
  | undef => exact ⟨rfl, rfl, rfl, rfl, fun s2 => rfl⟩
  | null => simp [typeofIsObject] at h
  | node ty2 ps cs => simp [typeofIsObject] at h
  | arr xs => simp [typeofIsObject] at h

/-- Witness for `createElement_wraps_primitive_unconverted` at the concrete
primitive `7`. -/
theorem createElement_wraps_primitive_unconverted_witness :
    typeofIsObject (JSVal.num 7) = false ∧
    contentOf (createElement "p" none [JSVal.num 7])
      = some [createTextElement (JSVal.num 7)] :=
  ⟨rfl, (createElement_wraps_primitive_unconverted "p" none (JSVal.num 7) rfl).1⟩

/-- C10: a flattened content item is wrapped into a text node only when its
JavaScript type is not object: the normalization leaves every object-typed
item (`null` included) unchanged, and in particular a lone `null` content
item yields the child `null` itself, not a text node. -/
theorem createElement_object_items_pass_through (ty : String)
    (props : Option (List (String × JSVal))) (c : JSVal)
    (h : typeofIsObject c = true) :
    normalizeChild c = c ∧
    contentOf (createElement ty props [JSVal.null]) = some [JSVal.null] ∧
    typeofIsObject JSVal.null = true ∧
    contentOf (createElement ty props [c]) = some ((unwrapOne c).map normalizeChild) := by
  refine ⟨?_, rfl, rfl, ?_⟩
  · simp [normalizeChild, h]
  · show some ((flatOne [c]).map normalizeChild) = _
    cases c with
    | arr xs => simp [flatOne, unwrapOne]
    | str s => rfl
    | num n => rfl
    | boolVal b => rfl
    | null => rfl
    | undef => rfl
    | node ty2 ps cs => rfl

/-- Witness for `createElement_object_items_pass_through` at the concrete
object-typed item `null`. -/
theorem createElement_object_items_pass_through_witness :
    typeofIsObject JSVal.null = true ∧
    normalizeChild JSVal.null = JSVal.null ∧
    contentOf (createElement "div" none [JSVal.null]) = some [JSVal.null] :=
  ⟨rfl, (createElement_object_items_pass_through "div" none JSVal.null rfl).1,
    (createElement_object_items_pass_through "div" none JSVal.null rfl).2.1⟩

/-! ## Theorems about the materializer -/

/-- C1 (counterexample): rendering the text VirtualNode with payload `"hi"`
produces a host text node whose `nodeValue` is `"hi"`, not the empty string:
the attribute-application loop of `render` runs for text nodes too and
assigns the payload from the fixed key, refuting the claim that the
materialized host text node carries an empty payload. -/
theorem render_text_payload_counterexample :
    renderNode (createTextElement (JSVal.str "hi"))
      = some (HostNode.text [("nodeValue", JSVal.str "hi")] []) ∧
    lookupProp (HostNode.text [("nodeValue", JSVal.str "hi")] []).props "nodeValue"
      = some (JSVal.str "hi") ∧
    JSVal.str "hi" ≠ JSVal.str "" := by
  refine ⟨rfl, rfl, ?_⟩
  intro h
  injection h with h2
  exact absurd h2 (by decide)

/-- C1 (amended): `render` creates the host text primitive with an empty
payload, but the subsequent attribute-application loop assigns the actual
text content from the attributes' fixed key (`nodeValue`), so for every text
VirtualNode built by `createTextElement` the materialized host text node
carries the node's text payload. -/
theorem render_text_assigns_payload (v : JSVal) :
    renderNode (createTextElement v)
      = some (HostNode.text [("nodeValue", v)] []) ∧
    lookupProp (HostNode.text [("nodeValue", v)] []).props "nodeValue" = some v :=
  ⟨rfl, rfl⟩

lemma setProp_children (d : HostNode) (k : String) (v : JSVal) :
    (setProp d k v).children = d.children := by
  cases d <;> rfl

lemma setProp_props (d : HostNode) (k : String) (v : JSVal) :
    (setProp d k v).props = updateAssoc d.props k v := by
  cases d <;> rfl

lemma addChildren_props (d : HostNode) (ks : List HostNode) :
    (addChildren d ks).props = d.props := by
  cases d <;> rfl

lemma addChildren_children (d : HostNode) (ks : List HostNode) :
    (addChildren d ks).children = d.children ++ ks := by
  cases d <;> rfl

lemma appendChild_children (p d : HostNode) :
    (appendChild p d).children = p.children ++ [d] := by
  cases p <;> rfl

lemma applyProps_children (props : List (String × JSVal)) (d : HostNode) :
    (applyProps d props).children = d.children := by
  induction props generalizing d with
  | nil => rfl
  | cons p ps ih =>
      show (applyProps (if p.1 = "children" then d else setProp d p.1 p.2) ps).children
        = d.children
      rw [ih]
      by_cases hp : p.1 = "children"
      · rw [if_pos hp]
      · rw [if_neg hp, setProp_children]

lemma lookup_updateAssoc_self (l : List (String × JSVal)) (k : String) (v : JSVal) :
    lookupProp (updateAssoc l k v) k = some v := by
  induction l with
  | nil => simp [updateAssoc, lookupProp]
  | cons p ps ih =>
      obtain ⟨k1, v1⟩ := p
      by_cases hk : k1 = k
      · rw [updateAssoc, if_pos hk, lookupProp, if_pos rfl]
      · rw [updateAssoc, if_neg hk, lookupProp, if_neg hk, ih]

lemma lookup_updateAssoc_ne (l : List (String × JSVal)) (k k2 : String) (v : JSVal)
    (h : k2 ≠ k) :
    lookupProp (updateAssoc l k v) k2 = lookupProp l k2 := by
  induction l with
  | nil =>
      show lookupProp [(k, v)] k2 = none
      rw [lookupProp, if_neg (fun hk : k = k2 => h hk.symm)]
      rfl
  | cons p ps ih =>
      obtain ⟨k1, v1⟩ := p
      by_cases hk : k1 = k
      · rw [updateAssoc, if_pos hk, lookupProp, if_neg (fun hk2 => h hk2.symm),
          lookupProp, if_neg (fun hk2 : k1 = k2 => h (hk ▸ hk2).symm)]
      · rw [updateAssoc, if_neg hk, lookupProp, lookupProp]
        by_cases hk2 : k1 = k2
        · rw [if_pos hk2, if_pos hk2]
        · rw [if_neg hk2, if_neg hk2, ih]

lemma applyProps_lookup_other (props : List (String × JSVal)) (d : HostNode)
    (k : String) (hk : k ∉ props.map Prod.fst) :
    lookupProp (applyProps d props).props k = lookupProp d.props k := by
  revert hk
  induction props generalizing d with
  | nil => intro hk; rfl
  | cons p ps ih =>
      intro hk
      have hk1 : k ≠ p.1 := fun he => hk (by rw [he]; exact List.mem_cons_self _ _)
      have hk2 : k ∉ ps.map Prod.fst := fun hm => hk (List.mem_cons_of_mem _ hm)
      show lookupProp (applyProps (if p.1 = "children" then d else setProp d p.1 p.2) ps).props k
        = lookupProp d.props k
      rw [ih _ hk2]
      by_cases hc : p.1 = "children"
      · rw [if_pos hc]
      · rw [if_neg hc, setProp_props, lookup_updateAssoc_ne _ _ _ _ hk1]

lemma applyProps_lookup_children (props : List (String × JSVal)) (d : HostNode) :
    lookupProp (applyProps d props).props "children" = lookupProp d.props "children" := by
  induction props generalizing d with
  | nil => rfl
  | cons p ps ih =>
      show lookupProp (applyProps (if p.1 = "children" then d else setProp d p.1 p.2) ps).props
          "children" = lookupProp d.props "children"
      rw [ih]
      by_cases hc : p.1 = "children"
      · rw [if_pos hc]
      · rw [if_neg hc, setProp_props, lookup_updateAssoc_ne _ _ _ _ (Ne.symm hc)]

lemma applyProps_lookup_mem (props : List (String × JSVal)) (d : HostNode)
    (k : String) (v : JSVal) (hnd : (props.map Prod.fst).Nodup)
    (hk : k ≠ "children") (hmem : (k, v) ∈ props) :
    lookupProp (applyProps d props).props k = some v := by
  revert hnd hmem
  induction props generalizing d with
  | nil => intro hnd hmem; cases hmem
  | cons p ps ih =>
      intro hnd hmem
      obtain ⟨k1, v1⟩ := p
      show lookupProp
          (applyProps (if (k1, v1).1 = "children" then d else setProp d (k1, v1).1 (k1, v1).2)
            ps).props k = some v
      have hnd1 : (k1 :: ps.map Prod.fst).Nodup := by
        rw [List.map_cons] at hnd
        exact hnd
      rcases List.mem_cons.mp hmem with heq | hmem2
      · have hkk : k1 = k := ((Prod.mk.injEq k v k1 v1).mp heq).1.symm
        have hvv : v1 = v := ((Prod.mk.injEq k v k1 v1).mp heq).2.symm
        have hkeys : k ∉ ps.map Prod.fst := by
          have hnotin := (List.nodup_cons.mp hnd1).1
          rw [hkk] at hnotin
          exact hnotin
        rw [if_neg (show ¬ (k1, v1).1 = "children" from hkk ▸ hk),
          applyProps_lookup_other ps _ k hkeys, setProp_props]
        rw [show (k1, v1).1 = k from hkk, show (k1, v1).2 = v from hvv]
        exact lookup_updateAssoc_self _ _ _
      · have hnd2 : (ps.map Prod.fst).Nodup := (List.nodup_cons.mp hnd1).2
        exact ih _ hnd2 hmem2

lemma renderList_of_all_some (cs : List JSVal)
    (h : ∀ c ∈ cs, (renderNode c).isSome) :
    renderList cs = some (cs.filterMap renderNode) := by
  induction cs with
  | nil => rfl
  | cons c cs ih =>
      obtain ⟨d, hd⟩ := Option.isSome_iff_exists.mp (h c (List.mem_cons_self c cs))
      have ih2 := ih (fun x hx => h x (List.mem_cons_of_mem c hx))
      rw [renderList, hd, ih2, List.filterMap_cons, hd]

lemma filterMap_renderNode_length (cs : List JSVal)
    (h : ∀ c ∈ cs, (renderNode c).isSome) :
    (cs.filterMap renderNode).length = cs.length := by
  induction cs with
  | nil => rfl
  | cons c cs ih =>
      obtain ⟨d, hd⟩ := Option.isSome_iff_exists.mp (h c (List.mem_cons_self c cs))
      have ih2 := ih (fun x hx => h x (List.mem_cons_of_mem c hx))
      rw [List.filterMap_cons, hd, List.length_cons, List.length_cons, ih2]

/-- C3: on a VirtualNode whose `content` has length `k` (and whose children
all materialize), `render` appends exactly one host node to the parent; that
host node carries exactly `k` children, namely the complete recursive
materializations of the content items, in content order; the appended node is
already fully built (children attached) when the single append to the parent
happens. -/
theorem render_appends_one_node_with_ordered_children (ty : String)
    (props : List (String × JSVal)) (content : List JSVal) (parent : HostNode)
    (h : ∀ c ∈ content, (renderNode c).isSome) :
    ∃ dom : HostNode,
      renderNode (JSVal.node ty props content) = some dom ∧
      render (JSVal.node ty props content) parent = some (appendChild parent dom) ∧
      (appendChild parent dom).children = parent.children ++ [dom] ∧
      dom.children = content.filterMap renderNode ∧
      dom.children.length = content.length := by
  have hlist := renderList_of_all_some content h
  refine ⟨addChildren
      (applyProps (if ty = "TEXT_ELEMENT"
          then HostNode.text [("nodeValue", JSVal.str "")] []
          else HostNode.elem ty [] []) props)
      (content.filterMap renderNode), ?_, ?_, appendChild_children _ _, ?_, ?_⟩
  · rw [renderNode, hlist]
  · rw [render, renderNode, hlist]
  · rw [addChildren_children, applyProps_children]
    by_cases hty : ty = "TEXT_ELEMENT"
    · rw [if_pos hty]; rfl
    · rw [if_neg hty]; rfl
  · rw [addChildren_children, applyProps_children]
    by_cases hty : ty = "TEXT_ELEMENT"
    · rw [if_pos hty]
      show (List.filterMap renderNode content).length = content.length
      exact filterMap_renderNode_length content h
    · rw [if_neg hty]
      show (List.filterMap renderNode content).length = content.length
      exact filterMap_renderNode_length content h

/-- Witness for `render_appends_one_node_with_ordered_children` on a concrete
two-child node rendered into an empty `div`. -/
theorem render_appends_one_node_witness :
    (∀ c ∈ [createTextElement (JSVal.str "a"), JSVal.node "span" [] []],
      (renderNode c).isSome) ∧
    (∃ dom : HostNode,
      renderNode (JSVal.node "div" []
          [createTextElement (JSVal.str "a"), JSVal.node "span" [] []]) = some dom ∧
      render (JSVal.node "div" []
          [createTextElement (JSVal.str "a"), JSVal.node "span" [] []])
          (HostNode.elem "body" [] []) = some (appendChild (HostNode.elem "body" [] []) dom) ∧
      (appendChild (HostNode.elem "body" [] []) dom).children
        = (HostNode.elem "body" [] []).children ++ [dom] ∧
      dom.children
        = [createTextElement (JSVal.str "a"), JSVal.node "span" [] []].filterMap renderNode ∧
      dom.children.length
        = [createTextElement (JSVal.str "a"), JSVal.node "span" [] []].length) :=
  ⟨by decide,
    render_appends_one_node_with_ordered_children "div" []
      [createTextElement (JSVal.str "a"), JSVal.node "span" [] []]
      (HostNode.elem "body" [] []) (by decide)⟩

/-- C6: during `render`, every attribute of the node except the literal key
`"children"` is assigned onto the created host node under the same key (here:
it is retrievable there with its exact value), and no assignment under the
key `"children"` ever occurs — the materialized node has no `"children"`
property even when the attribute mapping contains that key. -/
theorem render_assigns_attrs_except_children (ty : String)
    (props : List (String × JSVal)) (content : List JSVal) (dom : HostNode)
    (k : String) (v : JSVal)
    (hdom : renderNode (JSVal.node ty props content) = some dom)
    (hnd : (props.map Prod.fst).Nodup)
    (hk : k ≠ "children") (hmem : (k, v) ∈ props) :
    lookupProp dom.props k = some v ∧ lookupProp dom.props "children" = none := by
  rw [renderNode] at hdom
  cases hlist : renderList content with
  | none => rw [hlist] at hdom; cases hdom
  | some kids =>
      rw [hlist] at hdom
      have hdom2 : dom = addChildren
          (applyProps (if ty = "TEXT_ELEMENT"
              then HostNode.text [("nodeValue", JSVal.str "")] []
              else HostNode.elem ty [] []) props) kids := (Option.some.injEq _ _).mp hdom |>.symm
      subst hdom2
      rw [addChildren_props]
      constructor
      · exact applyProps_lookup_mem props _ k v hnd hk hmem
      · rw [applyProps_lookup_children]
        by_cases hty : ty = "TEXT_ELEMENT"
        · rw [if_pos hty]; rfl
        · rw [if_neg hty]; rfl

/-- Witness for `render_assigns_attrs_except_children` on a node carrying the
attributes `a`, `b` and a spurious `children` key. -/
theorem render_assigns_attrs_witness :
    renderNode (JSVal.node "div"
        [("a", JSVal.num 1), ("b", JSVal.num 2), ("children", JSVal.num 3)] [])
      = some (HostNode.elem "div"
          [("a", JSVal.num 1), ("b", JSVal.num 2)] []) ∧
    ((([("a", JSVal.num 1), ("b", JSVal.num 2), ("children", JSVal.num 3)]
        : List (String × JSVal)).map Prod.fst).Nodup) ∧
    (lookupProp (HostNode.elem "div" [("a", JSVal.num 1), ("b", JSVal.num 2)] []).props "a"
        = some (JSVal.num 1) ∧
      lookupProp (HostNode.elem "div" [("a", JSVal.num 1), ("b", JSVal.num 2)] []).props
        "children" = none) :=
  ⟨rfl, by decide,
    render_assigns_attrs_except_children "div"
      [("a", JSVal.num 1), ("b", JSVal.num 2), ("children", JSVal.num 3)] []
      (HostNode.elem "div" [("a", JSVal.num 1), ("b", JSVal.num 2)] [])
      "a" (JSVal.num 1) rfl (by decide) (by decide)
      (List.mem_cons_self _ _)⟩

end GlJS
